import Mathlib

/-!
Verification development for the flux-enhanced-cli reconciliation wait engine.

The embedding mirrors the Go sources:
  * `pkg/events` (Monitor): readiness probing over unstructured documents
    (`checkResourceReady`, `getResourceStatus`), event deduplication
    (`checkEvents`), GVR resolution (`getResourceGVR`) and the
    `WaitForReady` select loop (modelled as a step function over timer
    events, with probe results supplied as oracle inputs).
  * `main.go`: the two-stage interrupt handler goroutine.

Machine integers (timestamps in nanoseconds) are modelled as `Int`;
network fetches are modelled by passing the fetched value (or its
absence) as an argument.
-/

/-- A JSON-like value, as held by `unstructured.Unstructured` objects.
`other` stands for any scalar that is neither a string, an object nor a
slice (numbers, booleans, null): the probes only ever distinguish those
three shapes. -/
inductive JVal where
  | str : String → JVal
  | obj : List (String × JVal) → JVal
  | arr : List JVal → JVal
  | other : JVal

/-- Map lookup on an object's field list (Go map indexing; first match). -/
def jLookup (m : List (String × JVal)) (k : String) : Option JVal :=
  (m.find? (fun p => p.fst == k)).map Prod.snd

/-- Result triple of the `unstructured.Nested*` accessors:
value, `found`, and whether a non-nil error was returned. -/
structure NestedRes (α : Type) where
  val : α
  found : Bool
  err : Bool
deriving DecidableEq, Repr

/-- `unstructured.NestedMap(m, k)`: missing key gives (nil, false, nil);
a key holding a non-map gives (nil, false, error). -/
def nestedMap (m : List (String × JVal)) (k : String) :
    NestedRes (List (String × JVal)) :=
  match jLookup m k with
  | none => ⟨[], false, false⟩
  | some (JVal.obj f) => ⟨f, true, false⟩
  | some _ => ⟨[], false, true⟩

/-- `unstructured.NestedSlice(m, k)`. -/
def nestedSlice (m : List (String × JVal)) (k : String) :
    NestedRes (List JVal) :=
  match jLookup m k with
  | none => ⟨[], false, false⟩
  | some (JVal.arr a) => ⟨a, true, false⟩
  | some _ => ⟨[], false, true⟩

/-- `unstructured.NestedString(m, k)`: the callers discard `found`/error,
so a missing or non-string field behaves as `""`. -/
def nestedString (m : List (String × JVal)) (k : String) :
    NestedRes String :=
  match jLookup m k with
  | none => ⟨"", false, false⟩
  | some (JVal.str s) => ⟨s, true, false⟩
  | some _ => ⟨"", false, true⟩

/-- The loop body of `checkResourceReady`: scan the conditions for an
entry that is a map with `type == "Ready" && status == "True"`; non-map
entries are skipped via `continue`. -/
def readyScan (conditions : List JVal) : Bool :=
  conditions.any fun cond =>
    match cond with
    | JVal.obj condMap =>
        (nestedString condMap "type").val == "Ready" &&
        (nestedString condMap "status").val == "True"
    | _ => false

/-- `Monitor.checkResourceReady`, after a successful Get of the resource
document `doc` (a fetch failure returns the fetch error before this code
runs and is outside the document-processing contract).  Returns the Go
pair (ready, error-present). -/
def checkResourceReady (doc : List (String × JVal)) : Bool × Bool :=
  let s := nestedMap doc "status"
  if !s.found || s.err then (false, s.err)
  else
    let c := nestedSlice s.val "conditions"
    if !c.found || c.err then (false, c.err)
    else (readyScan c.val, false)

/-- The condition loop of `getResourceStatus`, carrying the accumulated
`statusParts`.  Returns the Go pair (verdict string, summary string). -/
def statusLoop : List JVal → List String → String × String
  | [], parts =>
      if parts.isEmpty then ("checking", "")
      else ("not ready", String.intercalate ", " parts)
  | cond :: rest, parts =>
      match cond with
      | JVal.obj condMap =>
          let condType := (nestedString condMap "type").val
          let condStatus := (nestedString condMap "status").val
          let condMessage := (nestedString condMap "message").val
          if condType == "Ready" then
            if condStatus == "True" then ("ready", "Ready=True")
            else if condMessage != "" then
              statusLoop rest
                (parts ++ [condType ++ "=" ++ condStatus ++ " (" ++ condMessage ++ ")"])
            else
              statusLoop rest (parts ++ [condType ++ "=" ++ condStatus])
          else if condStatus == "False" && condMessage != "" then
            statusLoop rest
              (parts ++ [condType ++ "=" ++ condStatus ++ ": " ++ condMessage])
          else statusLoop rest parts
      | _ => statusLoop rest parts

/-- `Monitor.getResourceStatus`, after a successful Get of the resource
document `doc` (on a fetch failure the Go code returns
`("", "error getting resource: <cause>")` before this code runs). -/
def getResourceStatus (doc : List (String × JVal)) : String × String :=
  let s := nestedMap doc "status"
  if !s.found || s.err then ("unknown", "")
  else
    let c := nestedSlice s.val "conditions"
    if !c.found || c.err then ("no conditions", "")
    else statusLoop c.val []

/-- A core/v1 Event, restricted to the fields `checkEvents` reads. -/
structure K8sEvent where
  reason : String
  type : String
  message : String

/-- The `"%s:%s:%s"` triple of one event inside the fingerprint. -/
def tripleStr (e : K8sEvent) : String :=
  e.reason ++ ":" ++ e.type ++ ":" ++ e.message

/-- The fingerprint loop of `checkEvents`: concatenate the triples of the
up-to-3 most recent events, iterating from the end of the fetched list
backwards (`for i := len-1; i >= 0 && i >= len-3; i--`). -/
def eventHash (items : List K8sEvent) : String :=
  String.join (((items.reverse).take 3).map tripleStr)

/-- One notice printed by `output.PrintEvent(reason, message, isWarning)`. -/
structure Notice where
  reason : String
  message : String
  isWarning : Bool
deriving DecidableEq, Repr

/-- The warning classification of an emitted event
(`corev1.EventTypeWarning` is the string "Warning"). -/
def classifyWarning (e : K8sEvent) : Bool :=
  e.type == "Warning" || e.reason == "HealthCheckFailed" ||
    e.reason == "DependencyNotReady"

/-- `Monitor.checkEvents`.  The event-list fetch is modelled by `fetch`:
`none` is a fetch error, `some items` the fetched list.  The mutable
`m.lastHash` is threaded explicitly; the result is the new `lastHash`
together with the notices printed (the `shown < 2` loop from the end of
the list backwards). -/
def checkEvents (fetch : Option (List K8sEvent)) (lastHash : String) :
    String × List Notice :=
  match fetch with
  | none => (lastHash, [])
  | some items =>
      if items.isEmpty then (lastHash, [])
      else
        let hash := eventHash items
        if hash != lastHash then
          (hash, ((items.reverse).take 2).map fun e =>
            ⟨e.reason, e.message, classifyWarning e⟩)
        else (lastHash, [])

/-- The interrupt-handler goroutine state of `main.go`: the two atomics
`lastInterruptNano` and `interruptCount` (both zero-initialised). -/
structure InterruptState where
  lastNano : Int
  count : Int
deriving DecidableEq, Repr

/-- `const interruptWindowNano = int64(2 * time.Second)`. -/
def interruptWindowNano : Int := 2000000000

def initInterrupt : InterruptState := ⟨0, 0⟩

/-- The visible effect of handling one signal. -/
inductive SigAction where
  | cancelCtx
  | exitCode (n : Nat)
  | noAction
deriving DecidableEq, Repr

/-- One iteration of the signal-handler goroutine in `main.go`: update
count (increment within the window, else reset to 1), record the
timestamp, then cancel on count==1 and exit 130 on count>=2. -/
def handleSignal (st : InterruptState) (nowNano : Int) :
    InterruptState × SigAction :=
  let count := if nowNano - st.lastNano < interruptWindowNano
    then st.count + 1 else 1
  let st' : InterruptState := ⟨nowNano, count⟩
  if count == 1 then (st', SigAction.cancelCtx)
  else if count ≥ 2 then (st', SigAction.exitCode 130)
  else (st', SigAction.noAction)

/-- Handling a sequence of signals one at a time, starting in `st`;
stops (the process dies) at the first `exitCode`.  Returns the state
after the last handled signal and the exit code if one occurred. -/
def runSignals (st : InterruptState) : List Int → InterruptState × Option Nat
  | [] => (st, none)
  | t :: ts =>
      match handleSignal st t with
      | (st', SigAction.exitCode n) => (st', some n)
      | (st', _) => runSignals st' ts

/-- `schema.GroupVersionResource`. -/
structure GVR where
  group : String
  version : String
  resource : String
deriving DecidableEq, Repr

def helmV2GVR : GVR := ⟨"helm.toolkit.fluxcd.io", "v2", "helmreleases"⟩

def helmV2beta1GVR : GVR := ⟨"helm.toolkit.fluxcd.io", "v2beta1", "helmreleases"⟩

/-- `Monitor.getResourceGVR`.  The live existence Get used as the
HelmRelease capability probe is modelled by the oracle `v2GetOk`
(`err == nil` on the v2 Get); the second component lists the GVRs the
function performed live Gets against. -/
def getResourceGVR (kind : String) (v2GetOk : Bool) :
    Except String GVR × List GVR :=
  match kind with
  | "kustomization" =>
      (Except.ok ⟨"kustomize.toolkit.fluxcd.io", "v1", "kustomizations"⟩, [])
  | "helmrelease" =>
      if v2GetOk then (Except.ok helmV2GVR, [helmV2GVR])
      else (Except.ok helmV2beta1GVR, [helmV2GVR])
  | "git" | "gitrepository" =>
      (Except.ok ⟨"source.toolkit.fluxcd.io", "v1", "gitrepositories"⟩, [])
  | "oci" | "ocirepository" =>
      (Except.ok ⟨"source.toolkit.fluxcd.io", "v1beta2", "ocirepositories"⟩, [])
  | k => (Except.error ("unsupported resource kind: " ++ k), [])

/-- Which live probe a `WaitForReady` step performed, and with which
resolved coordinates. -/
inductive ProbeKind where
  | summary
  | readyProbe
deriving DecidableEq, Repr

/-- `10 * time.Second` in nanoseconds: both the error-report rate limit
window used on the fast tick path. -/
def errReportWindowNano : Int := 10000000000

/-- Mutable loop state of `WaitForReady`: `lastStatusTime`, the marker
used solely to rate-limit probe-error reports (the periodic status
printer uses its own ticker, not this marker). -/
structure WaitState where
  lastStatusTime : Int
deriving DecidableEq, Repr

/-- One firing of the `select` in `WaitForReady`.  Probe results are
supplied as oracle inputs alongside the event: `summaryRes` is what
`getResourceStatus` would return if called on this tick, `readyRes`
what `checkResourceReady` would return (`(ready, some errMsg)` when the
Go error is non-nil, `(ready, none)` otherwise). -/
inductive TimerEvent where
  | ctxDone
  | statusTick (now : Int) (summaryRes : String × String)
  | fastTick (now : Int) (summaryRes : String × String)
      (readyRes : Bool × Option String)

/-- Terminal outcomes of `WaitForReady`: `cancelled` is `return ctx.Err()`,
`timedOut` is the `"timeout waiting for ... reconciliation"` error,
`ready` is `return nil`. -/
inductive Terminal where
  | cancelled
  | timedOut
  | ready
deriving DecidableEq, Repr

/-- Result of one `select` firing: either the loop returns with a
terminal outcome or it keeps running with an updated state. -/
inductive StepResult where
  | terminal (t : Terminal)
  | running (st : WaitState)
deriving DecidableEq, Repr

/-- One `select` firing of `WaitForReady` (source order preserved):
ctx.Done returns the cancellation; a status tick calls
`getResourceStatus` and prints the progress lines; a fast tick first
checks the deadline (timeout path: one final `getResourceStatus`, the
"Timeout reached" print only when the summary is non-empty, then the
timeout error), and only otherwise calls `checkResourceReady`, with
probe errors rate-limited via `lastStatusTime` and never terminal.
Returns (step result, live probe calls made, lines printed); the
elapsed/remaining figures inside the progress line are elided. -/
def waitStep (gvr : GVR) (deadline : Int) (st : WaitState) :
    TimerEvent → StepResult × List (ProbeKind × GVR) × List String
  | TimerEvent.ctxDone => (StepResult.terminal Terminal.cancelled, [], [])
  | TimerEvent.statusTick _ summaryRes =>
      let prints :=
        if summaryRes.fst != "" then
          "Still waiting... (elapsed, remaining)" ::
            (if summaryRes.snd != "" then
              ["Current status: " ++ summaryRes.snd] else [])
        else []
      (StepResult.running st, [(ProbeKind.summary, gvr)], prints)
  | TimerEvent.fastTick now summaryRes readyRes =>
      if now > deadline then
        (StepResult.terminal Terminal.timedOut, [(ProbeKind.summary, gvr)],
          if summaryRes.snd != "" then
            ["Timeout reached. Last known status: " ++ summaryRes.snd]
          else [])
      else
        match readyRes.snd with
        | some errMsg =>
            if now - st.lastStatusTime > errReportWindowNano then
              (StepResult.running ⟨now⟩, [(ProbeKind.readyProbe, gvr)],
                ["Unable to check status: " ++ errMsg ++ " (will retry)"])
            else
              (StepResult.running st, [(ProbeKind.readyProbe, gvr)], [])
        | none =>
            if readyRes.fst then
              (StepResult.terminal Terminal.ready, [(ProbeKind.readyProbe, gvr)], [])
            else
              (StepResult.running st, [(ProbeKind.readyProbe, gvr)], [])

/-- The `for { select { ... } }` loop of `WaitForReady`, driven by a
list of timer events; stops at the first terminal step (the Go
`return`), ignoring any remaining events.  Accumulates probe calls and
prints across the steps taken. -/
def waitLoop (gvr : GVR) (deadline : Int) (st : WaitState) :
    List TimerEvent →
      Option Terminal × WaitState × List (ProbeKind × GVR) × List String
  | [] => (none, st, [], [])
  | ev :: rest =>
      match waitStep gvr deadline st ev with
      | (StepResult.terminal t, calls, prints) => (some t, st, calls, prints)
      | (StepResult.running st', calls, prints) =>
          let r := waitLoop gvr deadline st' rest
          (r.fst, r.snd.fst, calls ++ r.snd.snd.fst, prints ++ r.snd.snd.snd)

/-- `Monitor.WaitForReady`: resolve the GVR once on entry (a resolution
error is returned unchanged and nothing is probed), then run the loop
with the resolved coordinates fixed for the whole run.  `startNano`
initialises `lastStatusTime`. -/
def WaitForReady (kind : String) (v2GetOk : Bool) (deadline startNano : Int)
    (evs : List TimerEvent) :
    Except String
      (Option Terminal × WaitState × List (ProbeKind × GVR) × List String) :=
  match getResourceGVR kind v2GetOk with
  | (Except.error e, _) => Except.error e
  | (Except.ok gvr, _) => Except.ok (waitLoop gvr deadline ⟨startNano⟩ evs)

/-! ## Helper lemmas -/

/-- Reachability invariant of the interrupt handler: starting from the
zero-initialised atomics, as long as no forced exit has occurred, either
no signal was handled yet (state still initial) or the count is 1. -/
lemma runSignals_inv (ts : List Int) :
    ∀ st fin : InterruptState, (st.count = 0 ∨ st.count = 1) →
      runSignals st ts = (fin, none) →
      (ts = [] ∧ fin = st) ∨ fin.count = 1 := by
  induction ts with
  | nil =>
      intro st fin _ h
      simp [runSignals] at h
      exact Or.inl ⟨rfl, h.symm⟩
  | cons t ts ih =>
      intro st fin hc h
      unfold runSignals handleSignal at h
      by_cases hw : t - st.lastNano < interruptWindowNano
      · rcases hc with h0 | h1
        · simp [hw, h0] at h
          rcases ih ⟨t, 1⟩ fin (Or.inr rfl) h with ⟨_, rfl⟩ | hfin
          · exact Or.inr rfl
          · exact Or.inr hfin
        · simp [hw, h1] at h
      · simp [hw] at h
        rcases ih ⟨t, 1⟩ fin (Or.inr rfl) h with ⟨_, rfl⟩ | hfin
        · exact Or.inr rfl
        · exact Or.inr hfin

/-! ## Claim theorems -/

/-- C9: the event deduplicator swallows failures atomically: a failed
fetch (`none`) or an empty fetched list produces no notices, propagates
no error (the Go function has no error result at all), and leaves
`lastHash` unchanged — the poll is a complete no-op. -/
theorem checkEvents_noop_on_failure_or_empty (lastHash : String) :
    checkEvents none lastHash = (lastHash, []) ∧
    checkEvents (some []) lastHash = (lastHash, []) :=
  ⟨rfl, rfl⟩

/-- C6: event fingerprinting is idempotent: for every fetch result, a
second poll observing the unchanged fetch emits no notices and leaves
`lastHash` unchanged. -/
theorem checkEvents_idempotent (fetch : Option (List K8sEvent))
    (lastHash : String) :
    checkEvents fetch (checkEvents fetch lastHash).fst =
      ((checkEvents fetch lastHash).fst, []) := by
  cases fetch with
  | none => rfl
  | some items =>
      by_cases hemp : items.isEmpty
      · simp [checkEvents, hemp]
      · by_cases hne : eventHash items = lastHash
        · simp [checkEvents, hemp, hne]
        · simp [checkEvents, hemp, hne]

/-- C2: the two-stage interrupt protocol.  Starting from the initial
interrupt state and for any sequence of signals handled one at a time
(with no forced exit yet): a signal when no signal was ever recorded, or
at least the 2-second window after the last recorded timestamp, resets
the count to 1, records the new timestamp and only cancels the shared
context cooperatively; a signal strictly within the window of the last
recorded timestamp (after at least one recorded signal) raises the count
to at least 2 and exits the process with code 130. -/
theorem interrupt_window_law (ts : List Int) (st : InterruptState) (t : Int)
    (h : runSignals initInterrupt ts = (st, none)) :
    (ts = [] → handleSignal st t = (⟨t, 1⟩, SigAction.cancelCtx)) ∧
    (t - st.lastNano ≥ interruptWindowNano →
      handleSignal st t = (⟨t, 1⟩, SigAction.cancelCtx)) ∧
    (ts ≠ [] → t - st.lastNano < interruptWindowNano →
      (handleSignal st t).fst = ⟨t, 2⟩ ∧
      (handleSignal st t).fst.count ≥ 2 ∧
      (handleSignal st t).snd = SigAction.exitCode 130 ∧
      (∀ more : List Int,
        runSignals st (t :: more) = (⟨t, 2⟩, some 130))) := by
  have hinv := runSignals_inv ts initInterrupt st (Or.inl rfl) h
  refine ⟨?_, ?_, ?_⟩
  · intro hts
    subst hts
    simp [runSignals] at h
    subst h
    unfold handleSignal
    by_cases hw : t - initInterrupt.lastNano < interruptWindowNano
    · simp [hw, initInterrupt]
    · simp [hw, initInterrupt]
  · intro hge
    have hw : ¬ t - st.lastNano < interruptWindowNano := not_lt.mpr hge
    unfold handleSignal
    simp [hw]
  · intro hts hw
    have hfin : st.count = 1 := by
      rcases hinv with ⟨hnil, _⟩ | hfin
      · exact absurd hnil hts
      · exact hfin
    have hstep : handleSignal st t = (⟨t, 2⟩, SigAction.exitCode 130) := by
      unfold handleSignal
      simp [hw, hfin]
    refine ⟨by rw [hstep], by rw [hstep], by rw [hstep], ?_⟩
    intro more
    unfold runSignals
    rw [hstep]

/-- Witness for C2 at a concrete trace: one signal at t=1s was handled
(cooperative cancel, no exit), a second at t=1.5s falls strictly inside
the 2s window and forces exit 130. -/
theorem interrupt_window_law_witness :
    (handleSignal ⟨1000000000, 1⟩ 1500000000).snd = SigAction.exitCode 130 :=
  ((interrupt_window_law [1000000000] ⟨1000000000, 1⟩ 1500000000
    (by decide)).2.2 (by decide) (by decide)).2.2.1

/-- Every live probe performed by one `waitStep` uses the GVR the step
was given. -/
lemma waitStep_calls_use_gvr (gvr : GVR) (deadline : Int) (st : WaitState)
    (ev : TimerEvent) :
    ∀ c ∈ (waitStep gvr deadline st ev).snd.fst, c.snd = gvr := by
  intro c hc
  cases ev with
  | ctxDone => simp [waitStep] at hc
  | statusTick now sRes =>
      simp [waitStep] at hc
      simp [hc]
  | fastTick now sRes rRes =>
      unfold waitStep at hc
      by_cases hd : now > deadline
      · simp [hd] at hc
        simp [hc]
      · simp [hd] at hc
        rcases hrs : rRes.snd with _ | emsg <;> rw [hrs] at hc
        · by_cases hr : rRes.fst <;> simp [hr] at hc <;> simp [hc]
        · split at hc <;> split at hc <;> simp_all

/-- Every live probe performed across a whole `waitLoop` run uses the
GVR the loop was given. -/
lemma waitLoop_calls_use_gvr (gvr : GVR) (deadline : Int) :
    ∀ (evs : List TimerEvent) (st : WaitState),
      ∀ c ∈ (waitLoop gvr deadline st evs).snd.snd.fst, c.snd = gvr := by
  intro evs
  induction evs with
  | nil => intro st c hc; simp [waitLoop] at hc
  | cons ev rest ih =>
      intro st c hc
      unfold waitLoop at hc
      rcases hstep : waitStep gvr deadline st ev with ⟨sr, calls, prints⟩
      have hcalls : ∀ x ∈ calls, x.snd = gvr := by
        intro x hx
        have := waitStep_calls_use_gvr gvr deadline st ev x
        rw [hstep] at this
        exact this hx
      rw [hstep] at hc
      cases sr with
      | terminal t => exact hcalls c hc
      | running st' =>
          simp only [List.mem_append] at hc
          rcases hc with hc | hc
          · exact hcalls c hc
          · exact ih st' c hc

/-- C5: HelmRelease resolution performs exactly one live existence Get,
against the v2 coordinates; a successful Get commits to v2 and any Get
failure commits to v2beta1 with no error surfaced; an unrecognized kind
is an unsupported-kind error with no fallback; and a `WaitForReady` run
resolves once on entry, every subsequent probe of the run using the
resolved coordinates. -/
theorem getResourceGVR_resolution (v2GetOk : Bool) (k : String)
    (deadline startNano : Int) (evs : List TimerEvent)
    (hk : k ≠ "kustomization" ∧ k ≠ "helmrelease" ∧ k ≠ "git" ∧
      k ≠ "gitrepository" ∧ k ≠ "oci" ∧ k ≠ "ocirepository") :
    (getResourceGVR "helmrelease" v2GetOk).snd = [helmV2GVR] ∧
    (getResourceGVR "helmrelease" true).fst = Except.ok helmV2GVR ∧
    (getResourceGVR "helmrelease" false).fst = Except.ok helmV2beta1GVR ∧
    (getResourceGVR k v2GetOk).fst =
      Except.error ("unsupported resource kind: " ++ k) ∧
    (∀ res, WaitForReady "helmrelease" v2GetOk deadline startNano evs =
        Except.ok res →
      ∀ c ∈ res.snd.snd.fst,
        c.snd = (if v2GetOk then helmV2GVR else helmV2beta1GVR)) := by
  refine ⟨by cases v2GetOk <;> rfl, rfl, rfl, ?_, ?_⟩
  · unfold getResourceGVR
    split
    · exact absurd rfl hk.1
    · exact absurd rfl hk.2.1
    · exact absurd rfl hk.2.2.1
    · exact absurd rfl hk.2.2.2.1
    · exact absurd rfl hk.2.2.2.2.1
    · exact absurd rfl hk.2.2.2.2.2
    · rfl
  · intro res hres c hc
    unfold WaitForReady getResourceGVR at hres
    cases v2GetOk <;> simp at hres <;> subst hres <;>
      simpa using waitLoop_calls_use_gvr _ deadline evs ⟨startNano⟩ c hc

/-- Witness for C5: an unrecognized kind ("deployment") errors, and a
concrete helmrelease run's probes all use the committed legacy GVR. -/
theorem getResourceGVR_resolution_witness :
    (getResourceGVR "deployment" false).fst =
      Except.error "unsupported resource kind: deployment" :=
  (getResourceGVR_resolution false "deployment" 0 0 []
    (by refine ⟨?_, ?_, ?_, ?_, ?_, ?_⟩ <;> decide)).2.2.2.1

/-- C4 (amended): on a fast-poll tick at which the deadline has already
passed, the loop performs exactly one further status-summary call and no
readiness probe, prints "Timeout reached. Last known status: <summary>"
when the last-known summary is non-empty (and prints nothing when it is
empty), returns the timeout error and processes no further events; and
on every fast tick the deadline is checked before the readiness probe:
a tick that performed a readiness probe was not past the deadline. -/
theorem waitLoop_timeout_tick (gvr : GVR) (deadline : Int) (st : WaitState)
    (now : Int) (sRes : String × String) (rRes : Bool × Option String)
    (rest : List TimerEvent) (h : now > deadline) :
    waitLoop gvr deadline st (TimerEvent.fastTick now sRes rRes :: rest) =
      (some Terminal.timedOut, st, [(ProbeKind.summary, gvr)],
        if sRes.snd != "" then
          ["Timeout reached. Last known status: " ++ sRes.snd]
        else []) ∧
    (∀ (now2 : Int) (sRes2 : String × String) (rRes2 : Bool × Option String),
      (ProbeKind.readyProbe, gvr) ∈
        (waitStep gvr deadline st
          (TimerEvent.fastTick now2 sRes2 rRes2)).snd.fst →
      ¬ now2 > deadline) := by
  have hstep : waitStep gvr deadline st (TimerEvent.fastTick now sRes rRes) =
      (StepResult.terminal Terminal.timedOut, [(ProbeKind.summary, gvr)],
        if sRes.snd != "" then
          ["Timeout reached. Last known status: " ++ sRes.snd]
        else []) := by
    simp only [waitStep]
    rw [if_pos h]
  constructor
  · simp only [waitLoop, hstep]
  · intro now2 sRes2 rRes2 hmem hd2
    simp only [waitStep] at hmem
    rw [if_pos hd2] at hmem
    simp at hmem

/-- Witness for C4 at concrete inputs: past the deadline with a
non-empty last summary the loop returns the timeout outcome after a
single summary probe and the timeout print, ignoring later events. -/
theorem waitLoop_timeout_tick_witness :
    waitLoop ⟨"g", "v", "r"⟩ 10 ⟨0⟩
        (TimerEvent.fastTick 11 ("not ready", "Ready=False (x)")
          (false, none) :: [TimerEvent.ctxDone]) =
      (some Terminal.timedOut, ⟨0⟩, [(ProbeKind.summary, ⟨"g", "v", "r"⟩)],
        ["Timeout reached. Last known status: Ready=False (x)"]) := by
  have := (waitLoop_timeout_tick ⟨"g", "v", "r"⟩ 10 ⟨0⟩ 11
    ("not ready", "Ready=False (x)") (false, none) [TimerEvent.ctxDone]
    (by decide)).1
  simpa using this

/-- Counterexample for C4 as stated: when the deadline has passed but
the last-known summary is empty (here a resource whose status document
is absent, summary `("unknown", "")`), the code prints nothing at all —
there is no "Timeout reached. Last known status: ..." line — while still
returning the timeout error after one summary probe. -/
theorem waitStep_timeout_silent_cex :
    waitStep ⟨"g", "v", "r"⟩ 10 ⟨0⟩
        (TimerEvent.fastTick 11 ("unknown", "") (false, none)) =
      (StepResult.terminal Terminal.timedOut,
        [(ProbeKind.summary, ⟨"g", "v", "r"⟩)], []) := by
  decide

/-- C8: a readiness-probe error never terminates the wait loop.  A fast
tick before the deadline whose `checkResourceReady` returned an error
keeps the loop running (regardless of the probe's boolean), printing the
error message only when more than 10 seconds have passed since the last
error report and updating that marker exactly then; the loop goes on to
process the remaining events; and the periodic status tick leaves the
error-report marker untouched (it is tracked separately). -/
theorem probe_error_never_terminates (gvr : GVR) (deadline : Int)
    (st : WaitState) (now : Int) (sRes : String × String) (b : Bool)
    (emsg : String) (hnd : ¬ now > deadline) :
    (waitStep gvr deadline st (TimerEvent.fastTick now sRes (b, some emsg)) =
      if now - st.lastStatusTime > errReportWindowNano then
        (StepResult.running ⟨now⟩, [(ProbeKind.readyProbe, gvr)],
          ["Unable to check status: " ++ emsg ++ " (will retry)"])
      else (StepResult.running st, [(ProbeKind.readyProbe, gvr)], [])) ∧
    (∀ rest : List TimerEvent,
      (waitLoop gvr deadline st
        (TimerEvent.fastTick now sRes (b, some emsg) :: rest)).fst =
      (waitLoop gvr deadline
        (if now - st.lastStatusTime > errReportWindowNano then ⟨now⟩ else st)
        rest).fst) ∧
    (∀ (now2 : Int) (sRes2 : String × String),
      (waitStep gvr deadline st (TimerEvent.statusTick now2 sRes2)).fst =
        StepResult.running st) := by
  have hstep : waitStep gvr deadline st
      (TimerEvent.fastTick now sRes (b, some emsg)) =
      if now - st.lastStatusTime > errReportWindowNano then
        (StepResult.running ⟨now⟩, [(ProbeKind.readyProbe, gvr)],
          ["Unable to check status: " ++ emsg ++ " (will retry)"])
      else (StepResult.running st, [(ProbeKind.readyProbe, gvr)], []) := by
    simp only [waitStep]
    rw [if_neg hnd]
  refine ⟨hstep, ?_, ?_⟩
  · intro rest
    simp only [waitLoop, hstep]
    by_cases hwin : now - st.lastStatusTime > errReportWindowNano <;>
      simp [hwin]
  · intro now2 sRes2
    simp only [waitStep]

/-- Witness for C8 at concrete inputs: a probe error 11s after the last
report is printed once and must keep the loop running. -/
theorem probe_error_never_terminates_witness :
    waitStep ⟨"g", "v", "r"⟩ 100000000000 ⟨0⟩
        (TimerEvent.fastTick 11000000000 ("unknown", "")
          (false, some "boom")) =
      (StepResult.running ⟨11000000000⟩,
        [(ProbeKind.readyProbe, ⟨"g", "v", "r"⟩)],
        ["Unable to check status: boom (will retry)"]) := by
  have := (probe_error_never_terminates ⟨"g", "v", "r"⟩ 100000000000 ⟨0⟩
    11000000000 ("unknown", "") false "boom" (by decide)).1
  rw [this]
  decide

/-- A `NestedString` value equals a given non-empty string exactly when
the field is present and holds that string (missing and non-string
fields both give `""`). -/
lemma nestedString_val_eq_iff (f : List (String × JVal)) (k s : String)
    (hs : s ≠ "") :
    (nestedString f k).val = s ↔ jLookup f k = some (JVal.str s) := by
  unfold nestedString
  cases h : jLookup f k with
  | none => simp [Ne.symm hs]
  | some v => cases v <;> simp [Ne.symm hs]

/-- The readiness scan succeeds exactly when some condition entry is a
map whose `type` field is the string "Ready" and whose `status` field is
the string "True". -/
lemma readyScan_iff (conds : List JVal) :
    readyScan conds = true ↔
      ∃ c ∈ conds, ∃ f, c = JVal.obj f ∧
        jLookup f "type" = some (JVal.str "Ready") ∧
        jLookup f "status" = some (JVal.str "True") := by
  unfold readyScan
  rw [List.any_eq_true]
  constructor
  · rintro ⟨c, hc, hp⟩
    cases c with
    | obj f =>
        simp only [Bool.and_eq_true, beq_iff_eq] at hp
        exact ⟨JVal.obj f, hc, f, rfl,
          (nestedString_val_eq_iff f "type" "Ready" (by decide)).mp hp.1,
          (nestedString_val_eq_iff f "status" "True" (by decide)).mp hp.2⟩
    | str s => simp at hp
    | arr a => simp at hp
    | other => simp at hp
  · rintro ⟨c, hc, f, rfl, ht, hst⟩
    refine ⟨JVal.obj f, hc, ?_⟩
    simp only [Bool.and_eq_true, beq_iff_eq]
    exact ⟨(nestedString_val_eq_iff f "type" "Ready" (by decide)).mpr ht,
      (nestedString_val_eq_iff f "status" "True" (by decide)).mpr hst⟩

/-- C1: `checkResourceReady` returns true iff the document's
status.conditions list contains a condition whose type equals "Ready"
and whose status equals "True" (regardless of the other conditions);
and a document lacking a status sub-document, or whose status
sub-document lacks a conditions list, yields false with no error. -/
theorem checkResourceReady_ready_iff (doc : List (String × JVal)) :
    ((checkResourceReady doc).fst = true ↔
      (∃ s conds, jLookup doc "status" = some (JVal.obj s) ∧
        jLookup s "conditions" = some (JVal.arr conds) ∧
        ∃ c ∈ conds, ∃ f, c = JVal.obj f ∧
          jLookup f "type" = some (JVal.str "Ready") ∧
          jLookup f "status" = some (JVal.str "True"))) ∧
    (jLookup doc "status" = none → checkResourceReady doc = (false, false)) ∧
    (∀ s, jLookup doc "status" = some (JVal.obj s) →
      jLookup s "conditions" = none →
      checkResourceReady doc = (false, false)) := by
  refine ⟨?_, ?_, ?_⟩
  · cases hs : jLookup doc "status" with
    | none => simp [checkResourceReady, nestedMap, hs]
    | some v =>
        cases v with
        | obj s =>
            cases hc : jLookup s "conditions" with
            | none => simp [checkResourceReady, nestedMap, nestedSlice, hs, hc]
            | some w =>
                cases w with
                | arr conds =>
                    simp only [checkResourceReady, nestedMap, nestedSlice,
                      hs, hc]
                    simp [readyScan_iff conds]
                    refine ⟨fun h => ⟨conds, hc, h⟩, ?_⟩
                    rintro ⟨x, hx, h⟩
                    have hxc : JVal.arr conds = JVal.arr x :=
                      Option.some.inj (hc.symm.trans hx)
                    cases hxc
                    exact h
                | str t =>
                    simp [checkResourceReady, nestedMap, nestedSlice, hs, hc]
                | obj f =>
                    simp [checkResourceReady, nestedMap, nestedSlice, hs, hc]
                | other =>
                    simp [checkResourceReady, nestedMap, nestedSlice, hs, hc]
        | str t => simp [checkResourceReady, nestedMap, hs]
        | arr a => simp [checkResourceReady, nestedMap, hs]
        | other => simp [checkResourceReady, nestedMap, hs]
  · intro hs
    simp [checkResourceReady, nestedMap, hs]
  · intro s hs hc
    simp [checkResourceReady, nestedMap, nestedSlice, hs, hc]

/-- Witness for C1 at concrete documents: a document with a
`Ready=True` condition is ready, and the empty document (no status
sub-document) yields false with no error. -/
theorem checkResourceReady_ready_iff_witness :
    (checkResourceReady
      [("status", JVal.obj [("conditions", JVal.arr
        [JVal.obj [("type", JVal.str "Ready"),
          ("status", JVal.str "True")]])])]).fst = true ∧
    checkResourceReady [] = (false, false) :=
  ⟨(checkResourceReady_ready_iff _).1.mpr
      ⟨_, _, rfl, rfl, JVal.obj [("type", JVal.str "Ready"),
        ("status", JVal.str "True")], List.mem_singleton.mpr rfl,
        _, rfl, rfl, rfl⟩,
    (checkResourceReady_ready_iff []).2.1 rfl⟩

/-- The per-condition test the probes apply for "Ready condition with
status True" (the `continue`d non-map entries test false). -/
def condReadyTrue : JVal → Bool
  | JVal.obj f =>
      (nestedString f "type").val == "Ready" &&
        (nestedString f "status").val == "True"
  | _ => false

/-- Specification-side rendering of one condition inside the summary
(from the claim's words): a Ready condition renders
"Ready=<status> (<message>)" with the parenthesized message omitted when
empty; any other condition qualifies only when its status is "False"
with a non-empty message and renders "<type>=<status>: <message>";
everything else (including non-map entries) contributes nothing. -/
def renderPart : JVal → Option String
  | JVal.obj f =>
      let t := (nestedString f "type").val
      let s := (nestedString f "status").val
      let m := (nestedString f "message").val
      if t == "Ready" then
        if m != "" then some (t ++ "=" ++ s ++ " (" ++ m ++ ")")
        else some (t ++ "=" ++ s)
      else if s == "False" && m != "" then
        some (t ++ "=" ++ s ++ ": " ++ m)
      else none
  | _ => none

/-- If some condition in the list is Ready=True, the summary loop
returns ("ready", "Ready=True") whatever was accumulated before. -/
lemma statusLoop_ready_true (conds : List JVal) :
    ∀ parts : List String, (∃ c ∈ conds, condReadyTrue c = true) →
      statusLoop conds parts = ("ready", "Ready=True") := by
  induction conds with
  | nil => intro parts h; simp at h
  | cons c rest ih =>
      intro parts h
      rcases h with ⟨d, hd, hdt⟩
      rcases List.mem_cons.mp hd with rfl | hdrest
      · cases d with
        | obj f =>
            simp only [condReadyTrue, Bool.and_eq_true] at hdt
            simp [statusLoop, hdt.1, hdt.2]
        | str t => simp [condReadyTrue] at hdt
        | arr a => simp [condReadyTrue] at hdt
        | other => simp [condReadyTrue] at hdt
      · have hrest : ∃ c ∈ rest, condReadyTrue c = true := ⟨d, hdrest, hdt⟩
        cases c with
        | obj f =>
            by_cases ht : ((nestedString f "type").val == "Ready") = true
            · by_cases hs : ((nestedString f "status").val == "True") = true
              · simp [statusLoop, ht, hs]
              · by_cases hm : ((nestedString f "message").val != "") = true
                · simp only [statusLoop, ht, hs, hm]
                  simp only [Bool.false_eq_true, if_false, if_true]
                  exact ih _ hrest
                · simp only [statusLoop, ht, hs, hm]
                  simp only [Bool.false_eq_true, if_false, if_true]
                  exact ih _ hrest
            · by_cases hq : (((nestedString f "status").val == "False") &&
                  ((nestedString f "message").val != "")) = true
              · simp only [statusLoop, ht, hq]
                simp only [Bool.false_eq_true, if_false, if_true]
                exact ih _ hrest
              · simp only [statusLoop, ht, hq]
                simp only [Bool.false_eq_true, if_false]
                exact ih _ hrest
        | str t => simpa only [statusLoop] using ih _ hrest
        | arr a => simpa only [statusLoop] using ih _ hrest
        | other => simpa only [statusLoop] using ih _ hrest

/-- If no condition in the list is Ready=True, the summary loop returns
the qualifying parts in list order appended to the accumulator:
"checking" with an empty summary when nothing qualifies, otherwise
"not ready" with the parts joined by ", ". -/
lemma statusLoop_no_ready_true (conds : List JVal) :
    ∀ parts : List String, (∀ c ∈ conds, condReadyTrue c = false) →
      statusLoop conds parts =
        (if (parts ++ conds.filterMap renderPart).isEmpty
         then ("checking", "")
         else ("not ready",
           String.intercalate ", " (parts ++ conds.filterMap renderPart))) := by
  induction conds with
  | nil => intro parts h; simp [statusLoop]
  | cons c rest ih =>
      intro parts h
      have hc := h c (List.mem_cons_self c rest)
      have hrest : ∀ d ∈ rest, condReadyTrue d = false := fun d hd =>
        h d (List.mem_cons_of_mem c hd)
      cases c with
      | obj f =>
          simp only [condReadyTrue] at hc
          by_cases ht : ((nestedString f "type").val == "Ready") = true
          · have hs : ((nestedString f "status").val == "True") = false := by
              cases hx : ((nestedString f "status").val == "True") with
              | false => rfl
              | true => rw [ht, hx] at hc; simp at hc
            by_cases hm : ((nestedString f "message").val != "") = true
            · have hr : renderPart (JVal.obj f) =
                  some ((nestedString f "type").val ++ "=" ++
                    (nestedString f "status").val ++ " (" ++
                    (nestedString f "message").val ++ ")") := by
                simp only [renderPart, ht, hm, if_true]
              simp only [statusLoop, ht, hs, hm]
              simp only [Bool.false_eq_true, if_false, if_true]
              rw [ih _ hrest, List.filterMap_cons_some hr]
              simp [List.append_assoc]
            · have hr : renderPart (JVal.obj f) =
                  some ((nestedString f "type").val ++ "=" ++
                    (nestedString f "status").val) := by
                simp only [renderPart, ht, hm, if_true]
                simp [hm]
              simp only [statusLoop, ht, hs, hm]
              simp only [Bool.false_eq_true, if_false, if_true]
              rw [ih _ hrest, List.filterMap_cons_some hr]
              simp [List.append_assoc]
          · by_cases hq : (((nestedString f "status").val == "False") &&
                ((nestedString f "message").val != "")) = true
            · have hr : renderPart (JVal.obj f) =
                  some ((nestedString f "type").val ++ "=" ++
                    (nestedString f "status").val ++ ": " ++
                    (nestedString f "message").val) := by
                simp only [renderPart, ht, hq]
                simp [ht, hq]
              simp only [statusLoop, ht, hq]
              simp only [Bool.false_eq_true, if_false, if_true]
              rw [ih _ hrest, List.filterMap_cons_some hr]
              simp [List.append_assoc]
            · have hr : renderPart (JVal.obj f) = none := by
                simp only [renderPart]
                simp [ht, hq]
              simp only [statusLoop, ht, hq]
              simp only [Bool.false_eq_true, if_false]
              rw [ih _ hrest, List.filterMap_cons_none hr]
      | str t =>
          simp only [statusLoop]
          rw [ih _ hrest, List.filterMap_cons_none rfl]
      | arr a =>
          simp only [statusLoop]
          rw [ih _ hrest, List.filterMap_cons_none rfl]
      | other =>
          simp only [statusLoop]
          rw [ih _ hrest, List.filterMap_cons_none rfl]

/-- C3 (amended): for every fetched document with a conditions list: if
some Ready condition has status True, the result is exactly
("ready", "Ready=True"); otherwise the summary consists of the
qualifying parts rendered in the order the conditions appear in the
list — the Ready condition as "Ready=<status> (<message>)" (message
omitted when empty), every other condition with status "False" and a
non-empty message as "<type>=<status>: <message>" — joined with ", ",
and when no condition qualifies the verdict is "checking" with an empty
summary string. -/
theorem getResourceStatus_summary (doc s : List (String × JVal))
    (conds : List JVal)
    (hs : jLookup doc "status" = some (JVal.obj s))
    (hc : jLookup s "conditions" = some (JVal.arr conds)) :
    ((∃ c ∈ conds, condReadyTrue c = true) →
      getResourceStatus doc = ("ready", "Ready=True")) ∧
    ((∀ c ∈ conds, condReadyTrue c = false) →
      getResourceStatus doc =
        (if (conds.filterMap renderPart).isEmpty then ("checking", "")
         else ("not ready",
           String.intercalate ", " (conds.filterMap renderPart)))) := by
  have hred : getResourceStatus doc = statusLoop conds [] := by
    simp [getResourceStatus, nestedMap, nestedSlice, hs, hc]
  constructor
  · intro h
    rw [hred]
    exact statusLoop_ready_true conds [] h
  · intro h
    rw [hred, statusLoop_no_ready_true conds [] h]
    simp

/-- Witness for C3 at a concrete document whose only condition is
Ready=True. -/
theorem getResourceStatus_summary_witness :
    getResourceStatus
      [("status", JVal.obj [("conditions", JVal.arr
        [JVal.obj [("type", JVal.str "Ready"),
          ("status", JVal.str "True")]])])] = ("ready", "Ready=True") :=
  (getResourceStatus_summary
    [("status", JVal.obj [("conditions", JVal.arr
      [JVal.obj [("type", JVal.str "Ready"),
        ("status", JVal.str "True")]])])]
    [("conditions", JVal.arr [JVal.obj [("type", JVal.str "Ready"),
      ("status", JVal.str "True")]])]
    [JVal.obj [("type", JVal.str "Ready"), ("status", JVal.str "True")]]
    rfl rfl).1
    ⟨JVal.obj [("type", JVal.str "Ready"), ("status", JVal.str "True")],
      List.mem_singleton.mpr rfl, rfl⟩

/-- Counterexample for C3 as stated: with conditions
[Healthy=False "boom", Ready=False "nope"] the code renders the parts in
list order, "Healthy=False: boom, Ready=False (nope)", not with the
Ready part first followed by the others as the claim requires; the
"checking" default is also the verdict component, with an empty summary
string. -/
theorem getResourceStatus_order_cex :
    getResourceStatus
      [("status", JVal.obj [("conditions", JVal.arr
        [JVal.obj [("type", JVal.str "Healthy"),
          ("status", JVal.str "False"), ("message", JVal.str "boom")],
         JVal.obj [("type", JVal.str "Ready"),
          ("status", JVal.str "False"),
          ("message", JVal.str "nope")]])])] =
      ("not ready", "Healthy=False: boom, Ready=False (nope)") ∧
    ("Healthy=False: boom, Ready=False (nope)" : String) ≠
      "Ready=False (nope), Healthy=False: boom" := by
  constructor
  · rfl
  · decide

/-- The readiness scan ignores a non-map entry anywhere in the list. -/
lemma readyScan_skip_non_obj (pre suf : List JVal) (v : JVal)
    (hv : ∀ f, v ≠ JVal.obj f) :
    readyScan (pre ++ v :: suf) = readyScan (pre ++ suf) := by
  unfold readyScan
  simp only [List.any_append, List.any_cons]
  cases v with
  | obj f => exact absurd rfl (hv f)
  | str t => simp
  | arr a => simp
  | other => simp

/-- The summary loop ignores a non-map entry anywhere in the list. -/
lemma statusLoop_skip_non_obj (pre suf : List JVal) (v : JVal)
    (hv : ∀ f, v ≠ JVal.obj f) :
    ∀ parts : List String,
      statusLoop (pre ++ v :: suf) parts = statusLoop (pre ++ suf) parts := by
  induction pre with
  | nil =>
      intro parts
      cases v with
      | obj f => exact absurd rfl (hv f)
      | str t => simp only [List.nil_append, statusLoop]
      | arr a => simp only [List.nil_append, statusLoop]
      | other => simp only [List.nil_append, statusLoop]
  | cons c pre ih =>
      intro parts
      cases c with
      | obj f =>
          simp only [List.cons_append, statusLoop]
          by_cases ht : ((nestedString f "type").val == "Ready") = true
          · by_cases hst : ((nestedString f "status").val == "True") = true
            · simp [ht, hst]
            · by_cases hm : ((nestedString f "message").val != "") = true
              · simp only [ht, hst, hm, Bool.false_eq_true, if_false, if_true]
                exact ih _
              · simp only [ht, hst, hm, Bool.false_eq_true, if_false, if_true]
                exact ih _
          · by_cases hq : (((nestedString f "status").val == "False") &&
                ((nestedString f "message").val != "")) = true
            · simp only [ht, hq, Bool.false_eq_true, if_false, if_true]
              exact ih _
            · simp only [ht, hq, Bool.false_eq_true, if_false]
              exact ih _
      | str t => simpa only [List.cons_append, statusLoop] using ih _
      | arr a => simpa only [List.cons_append, statusLoop] using ih _
      | other => simpa only [List.cons_append, statusLoop] using ih _

/-- C10: both probes are total over malformed condition data: a
non-map entry anywhere in the conditions list is skipped by both
`checkResourceReady` (which still reports no error) and
`getResourceStatus`, and a missing or non-string `type`/`status`/
`message` field reads as the empty string. -/
theorem probes_total_on_malformed (doc s : List (String × JVal))
    (pre suf : List JVal) (v : JVal)
    (hv : ∀ f, v ≠ JVal.obj f)
    (hs : jLookup doc "status" = some (JVal.obj s))
    (hc : jLookup s "conditions" = some (JVal.arr (pre ++ v :: suf))) :
    checkResourceReady doc = (readyScan (pre ++ suf), false) ∧
    getResourceStatus doc = statusLoop (pre ++ suf) [] ∧
    (∀ (f : List (String × JVal)) (k : String),
      jLookup f k = none → (nestedString f k).val = "") ∧
    (∀ (f : List (String × JVal)) (k : String) (w : JVal),
      jLookup f k = some w → (∀ t, w ≠ JVal.str t) →
      (nestedString f k).val = "") := by
  refine ⟨?_, ?_, ?_, ?_⟩
  · have : checkResourceReady doc = (readyScan (pre ++ v :: suf), false) := by
      simp [checkResourceReady, nestedMap, nestedSlice, hs, hc]
    rw [this, readyScan_skip_non_obj pre suf v hv]
  · have : getResourceStatus doc = statusLoop (pre ++ v :: suf) [] := by
      simp [getResourceStatus, nestedMap, nestedSlice, hs, hc]
    rw [this, statusLoop_skip_non_obj pre suf v hv]
  · intro f k hk
    simp [nestedString, hk]
  · intro f k w hk hw
    cases w with
    | str t => exact absurd rfl (hw t)
    | obj g => simp [nestedString, hk]
    | arr a => simp [nestedString, hk]
    | other => simp [nestedString, hk]

/-- Witness for C10 at a concrete document whose conditions list is the
single non-map entry `other`: both probes return normally, the
readiness probe with no error. -/
theorem probes_total_on_malformed_witness :
    checkResourceReady
      [("status", JVal.obj [("conditions", JVal.arr [JVal.other])])] =
      (false, false) := by
  have := (probes_total_on_malformed
    [("status", JVal.obj [("conditions", JVal.arr [JVal.other])])]
    [("conditions", JVal.arr [JVal.other])] [] [] JVal.other
    (fun f h => JVal.noConfusion h) rfl rfl).1
  simpa [readyScan] using this

/-- Right cancellation for string concatenation. -/
lemma str_append_cancel_right {a b c : String} (h : a ++ c = b ++ c) :
    a = b := by
  apply String.ext
  have hd := congrArg String.data h
  simp only [String.data_append] at hd
  exact List.append_cancel_right hd

/-- Left cancellation for string concatenation. -/
lemma str_append_cancel_left {a b c : String} (h : a ++ b = a ++ c) :
    b = c := by
  apply String.ext
  have hd := congrArg String.data h
  simp only [String.data_append] at hd
  exact List.append_cancel_left hd

/-- Two fingerprint triples that agree on two of the three event fields
but differ on the remaining one are distinct strings. -/
lemma tripleStr_ne_of_field_change (e f : K8sEvent)
    (h : (e.reason ≠ f.reason ∧ e.type = f.type ∧ e.message = f.message) ∨
         (e.reason = f.reason ∧ e.type ≠ f.type ∧ e.message = f.message) ∨
         (e.reason = f.reason ∧ e.type = f.type ∧ e.message ≠ f.message)) :
    tripleStr e ≠ tripleStr f := by
  unfold tripleStr
  rcases h with ⟨h1, h2, h3⟩ | ⟨h1, h2, h3⟩ | ⟨h1, h2, h3⟩
  · rw [h2, h3]
    intro heq
    exact h1 (str_append_cancel_right (str_append_cancel_right
      (str_append_cancel_right (str_append_cancel_right heq))))
  · rw [h1, h3]
    intro heq
    exact h2 (str_append_cancel_left
      (str_append_cancel_right (str_append_cancel_right heq)))
  · rw [h1, h2]
    intro heq
    exact h3 (str_append_cancel_left heq)

/-- `String.join` of a cons. -/
lemma join_cons (a : String) (l : List String) :
    String.join (a :: l) = a ++ String.join l := by
  apply String.ext
  rw [String.join_eq, String.join_eq]
  simp [String.data_append]

/-- Replacing, within the first `n` positions of a list of strings, one
string by a different one changes the concatenation of the first `n`
entries. -/
lemma join_take_set_ne :
    ∀ (l : List String) (j n : Nat) (hj : j < l.length), j < n →
      ∀ y : String, y ≠ l.get ⟨j, hj⟩ →
      String.join ((l.set j y).take n) ≠ String.join (l.take n) := by
  intro l
  induction l with
  | nil => intro j n hj; simp at hj
  | cons a t ih =>
      intro j n hj hjn y hy
      cases j with
      | zero =>
          cases n with
          | zero => simp at hjn
          | succ m =>
              simp only [List.set_cons_zero, List.take_succ_cons]
              rw [join_cons, join_cons]
              intro heq
              exact hy (str_append_cancel_right heq)
      | succ k =>
          cases n with
          | zero => simp at hjn
          | succ m =>
              simp only [List.set_cons_succ, List.take_succ_cons]
              rw [join_cons, join_cons]
              intro heq
              exact ih k m (by simpa using hj) (by omega) y
                (by simpa [List.get_cons_succ] using hy)
                (str_append_cancel_left heq)

/-- C7: fingerprint sensitivity.  Changing the reason, the type or the
message of any one of the 3 most-recent events (position `j` from the
end of the fetched list, the other two fields and all other events
unchanged) changes the computed fingerprint, and a poll observing the
changed list (with `lastHash` equal to the old fingerprint) emits
exactly one batch of between 1 and 2 notices, the up-to-2 most recent
events. -/
theorem eventHash_sensitive (items items' : List K8sEvent) (j : Nat)
    (e' : K8sEvent) (hj : j < items.reverse.length) (hj3 : j < 3)
    (hchange :
      (e'.reason ≠ (items.reverse.get ⟨j, hj⟩).reason ∧
        e'.type = (items.reverse.get ⟨j, hj⟩).type ∧
        e'.message = (items.reverse.get ⟨j, hj⟩).message) ∨
      (e'.reason = (items.reverse.get ⟨j, hj⟩).reason ∧
        e'.type ≠ (items.reverse.get ⟨j, hj⟩).type ∧
        e'.message = (items.reverse.get ⟨j, hj⟩).message) ∨
      (e'.reason = (items.reverse.get ⟨j, hj⟩).reason ∧
        e'.type = (items.reverse.get ⟨j, hj⟩).type ∧
        e'.message ≠ (items.reverse.get ⟨j, hj⟩).message))
    (hitems' : items' = ((items.reverse).set j e').reverse) :
    eventHash items' ≠ eventHash items ∧
    checkEvents (some items') (eventHash items) =
      (eventHash items', ((items'.reverse).take 2).map fun e =>
        ⟨e.reason, e.message, classifyWarning e⟩) ∧
    1 ≤ (((items'.reverse).take 2).map fun e : K8sEvent =>
      (⟨e.reason, e.message, classifyWarning e⟩ : Notice)).length ∧
    (((items'.reverse).take 2).map fun e : K8sEvent =>
      (⟨e.reason, e.message, classifyWarning e⟩ : Notice)).length ≤ 2 := by
  subst hitems'
  have hne : eventHash (((items.reverse).set j e').reverse) ≠
      eventHash items := by
    unfold eventHash
    rw [List.reverse_reverse]
    rw [List.map_take, List.map_take, List.map_set]
    refine join_take_set_ne (items.reverse.map tripleStr) j 3
      (by simpa using hj) hj3 (tripleStr e') ?_
    simp only [List.get_eq_getElem, List.getElem_map]
    exact tripleStr_ne_of_field_change e' (items.reverse.get ⟨j, hj⟩) hchange
  have hlen : (((items.reverse).set j e').reverse).length = items.length := by
    simp
  have hjl : j < items.length := by simpa using hj
  have hpos : 0 < (((items.reverse).set j e').reverse).length := by
    rw [hlen]
    omega
  have hnempty : (((items.reverse).set j e').reverse).isEmpty = false := by
    simp [List.ne_nil_of_length_pos hpos]
  refine ⟨hne, ?_, ?_, ?_⟩
  · simp only [checkEvents, hnempty, Bool.false_eq_true, if_false,
      bne_iff_ne, ne_eq, hne, not_false_eq_true, if_true]
  · simp only [List.length_map, List.length_take, List.length_reverse,
      List.length_set]
    omega
  · simp only [List.length_map, List.length_take, List.length_reverse,
      List.length_set]
    omega

/-- Witness for C7 at a concrete one-event list: changing the single
event's reason from "r" to "x" changes the fingerprint. -/
theorem eventHash_sensitive_witness :
    eventHash [⟨"x", "Normal", "m"⟩] ≠ eventHash [⟨"r", "Normal", "m"⟩] :=
  (eventHash_sensitive [⟨"r", "Normal", "m"⟩] [⟨"x", "Normal", "m"⟩] 0
    ⟨"x", "Normal", "m"⟩ (by decide) (by decide)
    (Or.inl ⟨by decide, rfl, rfl⟩) (by rfl)).1
